import Mathlib

/-
Verification of the emulation-supervisor specification against
`src/gba/supervisor/thread.c`: the thread lifecycle state machine
(Interrupt/Continue, Pause/Unpause, Start/Join) and the video/audio
producer-consumer synchronization channel.

The embedding is sequential: mutex-guarded critical sections become pure
state transformers; a condition wait whose wake-up is produced by the
worker thread's state poll (thread.c lines 244-261) is resolved in place
by `workerPollResolve`, because the host-side wait returns only after
that poll has run; a wait that nothing in the modelled run can wake is
`none`.  Lock/unlock/signal actions are additionally recorded as event
traces for the lock-discipline claims.
-/

/-- Modelled from the spec: the `ThreadState` enumeration is declared in
`thread.h`, which is not among the sources; the spec (section 3) fixes the
order INITIALIZED < RUNNING < {RESETING, INTERRUPTING, INTERRUPTED, PAUSING,
PAUSED} < EXITING < SHUTDOWN with CRASHED terminal and > EXITING, and
`thread.c` relies only on this order. -/
inductive ThreadState where
  | THREAD_INITIALIZED
  | THREAD_RUNNING
  | THREAD_RESETING
  | THREAD_INTERRUPTING
  | THREAD_INTERRUPTED
  | THREAD_PAUSING
  | THREAD_PAUSED
  | THREAD_EXITING
  | THREAD_SHUTDOWN
  | THREAD_CRASHED
  deriving DecidableEq

/-- Numeric value of a `ThreadState`, in declaration order. -/
def ThreadState.toCtr : ThreadState → Nat
  | .THREAD_INITIALIZED => 0
  | .THREAD_RUNNING => 1
  | .THREAD_RESETING => 2
  | .THREAD_INTERRUPTING => 3
  | .THREAD_INTERRUPTED => 4
  | .THREAD_PAUSING => 5
  | .THREAD_PAUSED => 6
  | .THREAD_EXITING => 7
  | .THREAD_SHUTDOWN => 8
  | .THREAD_CRASHED => 9

/-- The C comparison `a < b` on thread states. -/
def stLt (a b : ThreadState) : Bool := decide (a.toCtr < b.toCtr)

/-- The C comparison `a <= b` on thread states. -/
def stLe (a b : ThreadState) : Bool := decide (a.toCtr ≤ b.toCtr)

/-- The body of `GBAThreadIsActive` (thread.c lines 540-542):
`state >= THREAD_RUNNING && state < THREAD_EXITING`. -/
def activeState (s : ThreadState) : Bool :=
  stLe .THREAD_RUNNING s && stLt s .THREAD_EXITING

/-- The `GBASync` channel fields used by `thread.c` (declared in `thread.h`;
field set and invariants taken from spec section 3): the video rendezvous
state and the audio wait flag. -/
structure GBASync where
  videoFramePending : Nat
  videoFrameWait : Bool
  videoFrameOn : Bool
  videoFrameSkip : Int
  audioWait : Bool
  deriving DecidableEq

/-- An abstract `struct VFile*`: an id (standing for the pointer) plus the
oracle answers of `GBAIsROM` and `loadPatch` on this file. -/
structure VFile where
  id : Nat
  isROM : Bool
  isPatch : Bool
  deriving DecidableEq

/-- An abstract `struct VDir*`: an id plus, for each `listNext` entry in
order, the result of `openFile` on it (`none` when the open fails). -/
structure VDir where
  id : Nat
  entries : List (Option VFile)
  deriving DecidableEq

/-- The `GBAThread` context fields that the claims mention.  Config-only
fields (`fpsTarget`, rewind buffer, log level, `activeKeys`, callbacks) and
the non-owning collaborator pointers are elided; `threadSpawned` and
`mutexesInit` record whether `ThreadCreate` and the `MutexInit`/
`ConditionInit` calls have run. -/
structure GBAThread where
  state : ThreadState
  savedState : ThreadState
  interruptDepth : Int
  sync : GBASync
  rom : Option VFile
  bios : Option VFile
  save : Option VFile
  patch : Option VFile
  cheatsFile : Option VFile
  gameDir : Option VDir
  stateDir : Option VDir
  threadSpawned : Bool
  mutexesInit : Bool
  deriving DecidableEq

/-- Lock, unlock, signal and wait actions, in the order they happen, for the
lock-discipline claims. -/
inductive Ev where
  | lockState
  | unlockState
  | readState
  | wakeStateCond
  | lockVideo
  | unlockVideo
  | wakeAvailable
  | wakeRequired
  | timedWaitAvailable
  | waitRequired
  | lockAudio
  | unlockAudio
  | wakeAudioRequired
  | waitAudioRequired
  deriving DecidableEq

/-- Net number of `videoFrameMutex` acquisitions minus releases in a trace.
A condition wait releases and reacquires its mutex internally, so it has no
net effect and is a single event. -/
def videoLockDelta : List Ev → Int
  | [] => 0
  | Ev.lockVideo :: es => 1 + videoLockDelta es
  | Ev.unlockVideo :: es => videoLockDelta es - 1
  | _ :: es => videoLockDelta es

/-- Auxiliary for `readsStateUnderLock`: `d` is the current `stateMutex`
hold depth. -/
def readsStateUnderLockAux : Nat → List Ev → Bool
  | _, [] => true
  | d, Ev.lockState :: es => readsStateUnderLockAux (d + 1) es
  | d, Ev.unlockState :: es => readsStateUnderLockAux (d - 1) es
  | d, Ev.readState :: es => decide (0 < d) && readsStateUnderLockAux d es
  | d, _ :: es => readsStateUnderLockAux d es

/-- Whether every read of `state` in the trace happens while `stateMutex`
is held. -/
def readsStateUnderLock (es : List Ev) : Bool := readsStateUnderLockAux 0 es

/-- Result of one `GBASyncPostFrame` call on a non-null channel: the channel
state as written by the call, whether `videoFrameAvailableCond` was woken,
and whether the producer entered the `videoFrameRequiredCond` wait (i.e.
blocked until a consumer or `GBAThreadEnd` released it). -/
structure PostFrameResult where
  sync : GBASync
  signaled : Bool
  waited : Bool
  deriving DecidableEq

/-- Body of `GBASyncPostFrame` (thread.c lines 670-681): increment
`videoFramePending`, decrement `videoFrameSkip`; if the skip counter went
negative, wake `videoFrameAvailableCond` and, when `videoFrameWait` is set,
wait on `videoFrameRequiredCond`.  `sync` is the state at the first wait
point, which is also the state at return for the non-waiting paths. -/
def postFrameBody (s : GBASync) : PostFrameResult :=
  let s := { s with videoFramePending := s.videoFramePending + 1,
                    videoFrameSkip := s.videoFrameSkip - 1 }
  if s.videoFrameSkip < 0 then
    { sync := s, signaled := true, waited := s.videoFrameWait }
  else
    { sync := s, signaled := false, waited := false }

/-- `GBASyncPostFrame` (thread.c lines 665-682), with the `if (!sync) return`
null-channel guard. -/
def GBASyncPostFrame : Option GBASync → Option PostFrameResult
  | none => none
  | some s => some (postFrameBody s)

/-- The guard of the do/while loop in `GBASyncPostFrame` (line 679): the
producer's wait loop runs again iff this is true, so a woken producer
resumes exactly when `videoFramePending == 0` or `videoFrameWait` was
cleared. -/
def postFrameLoopGuard (s : GBASync) : Bool :=
  s.videoFrameWait && decide (s.videoFramePending ≠ 0)

/-- Event trace of `GBASyncPostFrame` on a non-null channel (one pass of the
wait loop; further passes repeat `waitRequired` only, leaving the lock
balance unchanged). -/
def postFrameEvents (s : GBASync) : List Ev :=
  [Ev.lockVideo] ++
    (if s.videoFrameSkip - 1 < 0 then
      [Ev.wakeAvailable] ++ (if s.videoFrameWait then [Ev.waitRequired] else [])
    else []) ++
  [Ev.unlockVideo]

/-- Body of `GBASyncWaitFrameStart` (thread.c lines 689-701).  `timedOut d`
is the oracle for `ConditionWaitTimed` with deadline `d` milliseconds
returning nonzero (deadline hit).  Returns the updated channel and the
returned boolean; `videoFrameMutex` stays held on every path. -/
def waitFrameStartBody (s : GBASync) (frameskip : Int) (timedOut : Nat → Bool) :
    GBASync × Bool :=
  if s.videoFrameOn = false ∧ s.videoFramePending = 0 then
    (s, false)
  else if s.videoFrameOn = true ∧ timedOut 50 = true then
    (s, false)
  else
    ({ s with videoFramePending := 0, videoFrameSkip := frameskip }, true)

/-- `GBASyncWaitFrameStart` (thread.c lines 684-702), with the null-channel
guard returning true. -/
def GBASyncWaitFrameStart : Option GBASync → Int → (Nat → Bool) → Option GBASync × Bool
  | none, _, _ => (none, true)
  | some s, frameskip, timedOut =>
    ((waitFrameStartBody s frameskip timedOut).1, (waitFrameStartBody s frameskip timedOut).2)

/-- Event trace of `GBASyncWaitFrameStart` on a non-null channel: lock, wake
`videoFrameRequiredCond`, then possibly the timed wait; no path unlocks. -/
def waitFrameStartEvents (s : GBASync) (_timedOut : Nat → Bool) : List Ev :=
  [Ev.lockVideo, Ev.wakeRequired] ++
    (if s.videoFrameOn = false ∧ s.videoFramePending = 0 then []
     else if s.videoFrameOn = true then [Ev.timedWaitAvailable] else [])

/-- `GBASyncWaitFrameEnd` (thread.c lines 704-710) as its event trace: on a
non-null channel it releases `videoFrameMutex` and does nothing else. -/
def GBASyncWaitFrameEnd : Option GBASync → List Ev
  | none => []
  | some _ => [Ev.unlockVideo]

/-- Body of `GBASyncDrawingFrame` (line 717): `videoFrameSkip <= 0`. -/
def drawingFrameBody (s : GBASync) : Bool := decide (s.videoFrameSkip ≤ 0)

/-- `GBASyncDrawingFrame` (thread.c lines 712-718), null channel gives true. -/
def GBASyncDrawingFrame : Option GBASync → Bool
  | none => true
  | some s => drawingFrameBody s

/-- `_changeVideoSync` (thread.c lines 97-105): set `videoFrameOn` and wake
`videoFrameAvailableCond` when the value changes. -/
def changeVideoSync (s : GBASync) (frameOn : Bool) : GBASync :=
  if frameOn ≠ s.videoFrameOn then { s with videoFrameOn := frameOn } else s

/-- Event trace of `_changeVideoSync`. -/
def changeVideoSyncEvents (s : GBASync) (frameOn : Bool) : List Ev :=
  [Ev.lockVideo] ++ (if frameOn ≠ s.videoFrameOn then [Ev.wakeAvailable] else []) ++
  [Ev.unlockVideo]

/-- `GBASyncSuspendDrawing` (thread.c lines 720-726). -/
def GBASyncSuspendDrawing : Option GBASync → Option GBASync
  | none => none
  | some s => some (changeVideoSync s false)

/-- `GBASyncResumeDrawing` (thread.c lines 728-734). -/
def GBASyncResumeDrawing : Option GBASync → Option GBASync
  | none => none
  | some s => some (changeVideoSync s true)

/-- `GBASyncProduceAudio` (thread.c lines 736-746): wait once on
`audioRequiredCond` when `audioWait && wait`, then unlock.  The state is
unchanged; the trace records whether the producer blocked. -/
def GBASyncProduceAudio : Option GBASync → Bool → Option GBASync × List Ev
  | none, _ => (none, [])
  | some s, wait =>
    (some s, (if s.audioWait && wait then [Ev.waitAudioRequired] else []) ++ [Ev.unlockAudio])

/-- `GBASyncLockAudio` (thread.c lines 748-754). -/
def GBASyncLockAudio : Option GBASync → Option GBASync × List Ev
  | none => (none, [])
  | some s => (some s, [Ev.lockAudio])

/-- `GBASyncUnlockAudio` (thread.c lines 756-762). -/
def GBASyncUnlockAudio : Option GBASync → Option GBASync × List Ev
  | none => (none, [])
  | some s => (some s, [Ev.unlockAudio])

/-- `GBASyncConsumeAudio` (thread.c lines 764-771): wake `audioRequiredCond`
then unlock. -/
def GBASyncConsumeAudio : Option GBASync → Option GBASync × List Ev
  | none => (none, [])
  | some s => (some s, [Ev.wakeAudioRequired, Ev.unlockAudio])

/-- Iterated `GBASyncPostFrame` state: the channel after `n` further frames
were posted. -/
def postIter : Nat → GBASync → GBASync
  | 0, s => s
  | n + 1, s => (postFrameBody (postIter n s)).sync

/-- `_waitOnInterrupt` (thread.c lines 57-61): wait on `stateCond` while
`state == THREAD_INTERRUPTED`.  The wake-up must come from another host
thread's `GBAThreadContinue`; in the single-host sequential embedding a wait
entered at INTERRUPTED is therefore never woken, modelled as `none`. -/
def waitOnInterrupt (t : GBAThread) : Option GBAThread :=
  if t.state = .THREAD_INTERRUPTED then none else some t

/-- One pass of the worker's state poll (thread.c lines 245-260), which is
what wakes a host blocked in `_waitUntilNotState`: PAUSING becomes PAUSED,
INTERRUPTING becomes INTERRUPTED, RESETING becomes RUNNING (scheduling a CPU
reset); every other state is left alone. -/
def workerPollResolve : ThreadState → ThreadState
  | .THREAD_PAUSING => .THREAD_PAUSED
  | .THREAD_INTERRUPTING => .THREAD_INTERRUPTED
  | .THREAD_RESETING => .THREAD_RUNNING
  | s => s

/-- `_waitUntilNotState` (thread.c lines 63-87): save and clear
`videoFrameWait`, loop (nudging the sync conditions) until `state` differs
from `oldState`, restore `videoFrameWait`.  The loop exits only once the
worker's poll has moved the state, so the embedding applies
`workerPollResolve` at the wait point. -/
def waitUntilNotState (t : GBAThread) (oldState : ThreadState) : GBAThread :=
  let w := t.sync.videoFrameWait
  let t := { t with sync := { t.sync with videoFrameWait := false } }
  let t := if t.state = oldState then { t with state := workerPollResolve t.state } else t
  { t with sync := { t.sync with videoFrameWait := w } }

/-- `_pauseThread` (thread.c lines 89-94): set PAUSING and, unless called on
the worker itself, wait for the worker to leave PAUSING. -/
def pauseThread (t : GBAThread) (onThread : Bool) : GBAThread :=
  let t := { t with state := .THREAD_PAUSING }
  if onThread = false then waitUntilNotState t .THREAD_PAUSING else t

/-- `GBAThreadIsActive` (thread.c lines 540-542).  Note: unlike the other
queries it reads `state` without taking `stateMutex`. -/
def GBAThreadIsActive (t : GBAThread) : Bool := activeState t.state

/-- Event trace of `GBAThreadIsActive`: a bare read of `state`. -/
def isActiveEvents : List Ev := [Ev.readState]

/-- `GBAThreadInterrupt` (thread.c lines 544-558).  The write to
`gba->cpu->nextEvent` nudges the external emulation core and is not part of
the modelled state. -/
def GBAThreadInterrupt (t : GBAThread) : Option GBAThread :=
  let t := { t with interruptDepth := t.interruptDepth + 1 }
  if 1 < t.interruptDepth ∨ GBAThreadIsActive t = false then
    some t
  else
    let t := { t with savedState := t.state }
    (waitOnInterrupt t).map fun u =>
      waitUntilNotState { u with state := .THREAD_INTERRUPTING } .THREAD_INTERRUPTING

/-- `GBAThreadContinue` (thread.c lines 560-568). -/
def GBAThreadContinue (t : GBAThread) : GBAThread :=
  let t := { t with interruptDepth := t.interruptDepth - 1 }
  if t.interruptDepth < 1 ∧ GBAThreadIsActive t = true then
    { t with state := t.savedState }
  else t

/-- `GBAThreadPause` (thread.c lines 570-581). -/
def GBAThreadPause (t : GBAThread) : Option GBAThread :=
  (waitOnInterrupt t).map fun u =>
    if u.state = .THREAD_RUNNING then
      let u := pauseThread u false
      { u with sync := changeVideoSync u.sync false }
    else
      { u with sync := changeVideoSync u.sync true }

/-- `GBAThreadUnpause` (thread.c lines 583-593). -/
def GBAThreadUnpause (t : GBAThread) : Option GBAThread :=
  (waitOnInterrupt t).map fun u =>
    let u := if u.state = .THREAD_PAUSED ∨ u.state = .THREAD_PAUSING then
        { u with state := .THREAD_RUNNING } else u
    { u with sync := changeVideoSync u.sync true }

/-- `GBAThreadIsPaused` (thread.c lines 595-602): wait out an in-flight
interrupt, then `state == THREAD_PAUSED`. -/
def GBAThreadIsPaused (t : GBAThread) : Option Bool :=
  (waitOnInterrupt t).map fun u => decide (u.state = .THREAD_PAUSED)

/-- `GBAThreadTogglePause` (thread.c lines 604-618). -/
def GBAThreadTogglePause (t : GBAThread) : Option GBAThread :=
  (waitOnInterrupt t).map fun u =>
    if u.state = .THREAD_PAUSED ∨ u.state = .THREAD_PAUSING then
      { u with state := .THREAD_RUNNING, sync := changeVideoSync u.sync true }
    else if u.state = .THREAD_RUNNING then
      let u := pauseThread u false
      { u with sync := changeVideoSync u.sync false }
    else
      { u with sync := changeVideoSync u.sync true }

/-- `GBAThreadReset` (thread.c lines 474-480): wait out an in-flight
interrupt, set RESETING, wake.  There is no activity check. -/
def GBAThreadReset (t : GBAThread) : Option GBAThread :=
  (waitOnInterrupt t).map fun u => { u with state := .THREAD_RESETING }

/-- `GBAThreadHasStarted` (thread.c lines 428-434): `state > THREAD_INITIALIZED`. -/
def GBAThreadHasStarted (t : GBAThread) : Bool :=
  stLt .THREAD_INITIALIZED t.state

/-- `GBAThreadHasExited` (thread.c lines 436-442): `state > THREAD_EXITING`. -/
def GBAThreadHasExited (t : GBAThread) : Bool :=
  stLt .THREAD_EXITING t.state

/-- `GBAThreadHasCrashed` (thread.c lines 444-450): `state == THREAD_CRASHED`. -/
def GBAThreadHasCrashed (t : GBAThread) : Bool :=
  decide (t.state = .THREAD_CRASHED)

/-- Event trace of `GBAThreadHasStarted`: the read happens between
`MutexLock` and `MutexUnlock` of `stateMutex`. -/
def hasStartedEvents : List Ev := [Ev.lockState, Ev.readState, Ev.unlockState]

/-- Event trace of `GBAThreadHasExited`. -/
def hasExitedEvents : List Ev := [Ev.lockState, Ev.readState, Ev.unlockState]

/-- Event trace of `GBAThreadHasCrashed`. -/
def hasCrashedEvents : List Ev := [Ev.lockState, Ev.readState, Ev.unlockState]

/-- Event trace of `GBAThreadIsPaused` on the non-blocking path: the
`_waitOnInterrupt` guard read and the comparison read, both under the
lock. -/
def isPausedEvents : List Ev := [Ev.lockState, Ev.readState, Ev.readState, Ev.unlockState]

/-- The ids closed by `vf->close(vf)` on an optional handle. -/
def closeOpt : Option VFile → List Nat
  | some vf => [vf.id]
  | none => []

/-- `GBAThreadJoin` (thread.c lines 482-538): join the worker, tear down the
mutexes and conditions, free the rewind buffer (elided), then close and null
`rom`, `save`, `bios`, `patch`, `gameDir` (nulling an aliased `stateDir`
first) and `stateDir`, in that order.  Returns the context and the list of
closed handle ids.  Nothing closes `cheatsFile`. -/
def GBAThreadJoin (t : GBAThread) : GBAThread × List Nat :=
  let t := { t with mutexesInit := false }
  let c1 := closeOpt t.rom
  let t := { t with rom := none }
  let c2 := closeOpt t.save
  let t := { t with save := none }
  let c3 := closeOpt t.bios
  let t := { t with bios := none }
  let c4 := closeOpt t.patch
  let t := { t with patch := none }
  let r :=
    match t.gameDir with
    | some gd =>
      let t := if t.stateDir = some gd then { t with stateDir := none } else t
      ({ t with gameDir := none }, [gd.id])
    | none => (t, ([] : List Nat))
  let t := r.1
  let c5 := r.2
  let r2 :=
    match t.stateDir with
    | some sd => ({ t with stateDir := none }, [sd.id])
    | none => (t, ([] : List Nat))
  let t := r2.1
  let c6 := r2.2
  (t, c1 ++ c2 ++ c3 ++ c4 ++ c5 ++ c6)

/-- The CLI arguments consumed by `GBAMapArgumentsToContext`, as the results
of the opens it performs (`VDirOpen(fname)`, `VFileOpen(fname)`,
`VFileOpen(patch)`, `VFileOpen(cheatsFile)`). -/
structure GBAArguments where
  dirmode : Bool
  fnameDir : Option VDir
  fnameFile : Option VFile
  patchFile : Option VFile
  cheatsFileArg : Option VFile
  deriving DecidableEq

/-- `GBAMapArgumentsToContext` (thread.c lines 323-345); the libzip/lzma
fallbacks are compiled out in this source configuration. -/
def GBAMapArgumentsToContext (args : GBAArguments) (t : GBAThread) : GBAThread :=
  let t :=
    if args.dirmode then
      { t with gameDir := args.fnameDir, stateDir := args.fnameDir }
    else
      { t with rom := args.fnameFile, gameDir := none }
  { t with patch := args.patchFile, cheatsFile := args.cheatsFileArg }

/-- One step of the `GBAThreadStart` directory scan (thread.c lines 373-388):
an unopenable entry is skipped; the first ROM fills `rom`, the first patch
fills `patch`, anything else is closed immediately. -/
def dirScanStep (t : GBAThread) (ent : Option VFile) : GBAThread × List Nat :=
  match ent with
  | none => (t, [])
  | some vf =>
    if t.rom = none ∧ vf.isROM = true then ({ t with rom := some vf }, [])
    else if t.patch = none ∧ vf.isPatch = true then ({ t with patch := some vf }, [])
    else (t, [vf.id])

/-- The full directory scan loop of `GBAThreadStart`. -/
def dirScan : GBAThread → List (Option VFile) → GBAThread × List Nat
  | t, [] => (t, [])
  | t, ent :: rest =>
    let r := dirScanStep t ent
    let r2 := dirScan r.1 rest
    (r2.1, r.2 ++ r2.2)

/-- `GBAThreadStart` up to the ROM check (thread.c lines 347-390): field
initialization, rejection (and close) of a non-ROM `rom` handle, and the
`gameDir` scan.  Config fields no claim mentions (fpsTarget, rewind buffer,
activeKeys) are elided.  Returns the context and the ids closed so far. -/
def startScanPhase (t : GBAThread) : GBAThread × List Nat :=
  let t := { t with state := .THREAD_INITIALIZED,
                    sync := { t.sync with videoFrameOn := true, videoFrameSkip := 0 } }
  let r1 :=
    match t.rom with
    | some vf => if vf.isROM = false then ({ t with rom := none }, [vf.id]) else (t, ([] : List Nat))
    | none => (t, ([] : List Nat))
  let t := r1.1
  let r2 :=
    match t.gameDir with
    | some gd => dirScan t gd.entries
    | none => (t, ([] : List Nat))
  (r2.1, r1.2 ++ r2.2)

/-- `GBAThreadStart` (thread.c lines 347-426).  `saveFile` is the oracle
result of `VDirOptionalOpenFile` for the save.  If no ROM was resolved the
state is set to SHUTDOWN and false is returned before any mutex is
initialized or any thread spawned; otherwise the mutexes and conditions are
initialized, `interruptDepth` reset, the worker spawned, and the host waits
under `stateMutex` until `state >= THREAD_RUNNING` — a wait resolved by the
worker publishing RUNNING (line 228). -/
def GBAThreadStart (t : GBAThread) (saveFile : Option VFile) :
    GBAThread × List Nat × Bool :=
  let r := startScanPhase t
  let t := r.1
  if t.rom = none then
    ({ t with state := .THREAD_SHUTDOWN }, r.2, false)
  else
    let t := { t with save := saveFile }
    let t := { t with mutexesInit := true, interruptDepth := 0 }
    let t := { t with threadSpawned := true, state := .THREAD_RUNNING }
    (t, r.2, true)

/-- A host-side call in an Interrupt/Continue sequence. -/
inductive ICall where
  | intr
  | cont
  deriving DecidableEq

/-- Run a sequence of Interrupt/Continue calls; `none` when some call blocks
forever. -/
def runIC : List ICall → GBAThread → Option GBAThread
  | [], t => some t
  | ICall.intr :: rest, t => (GBAThreadInterrupt t).bind fun u => runIC rest u
  | ICall.cont :: rest, t => runIC rest (GBAThreadContinue t)

/-- Balanced (well-nested) Interrupt/Continue sequences, by the standard
first-return decomposition: empty, or an Interrupt, a balanced inner
segment, its matching Continue, and a balanced tail.  These are exactly the
sequences with equal counts whose every prefix has at least as many
Interrupts as Continues. -/
inductive BalancedIC : List ICall → Prop where
  | nil : BalancedIC []
  | wrap {xs ys : List ICall} : BalancedIC xs → BalancedIC ys →
      BalancedIC (ICall.intr :: xs ++ ICall.cont :: ys)

theorem interrupt_eq_nested (t : GBAThread) (h : 0 < t.interruptDepth) :
    GBAThreadInterrupt t = some { t with interruptDepth := t.interruptDepth + 1 } := by
  unfold GBAThreadInterrupt
  rw [if_pos]
  exact Or.inl (show (1 : Int) < t.interruptDepth + 1 by omega)

theorem interrupt_eq_inactive (t : GBAThread) (h : activeState t.state = false) :
    GBAThreadInterrupt t = some { t with interruptDepth := t.interruptDepth + 1 } := by
  unfold GBAThreadInterrupt
  rw [if_pos]
  exact Or.inr (show GBAThreadIsActive _ = false from h)

theorem interrupt_eq_outermost (t : GBAThread) (hd : t.interruptDepth = 0)
    (ha : activeState t.state = true) (hs : t.state ≠ .THREAD_INTERRUPTED) :
    GBAThreadInterrupt t = some { t with interruptDepth := 1,
                                         savedState := t.state,
                                         state := .THREAD_INTERRUPTED } := by
  obtain ⟨st, sv, d, sy, r, b, sa, p, c, g, sd, ts, mi⟩ := t
  simp only at hd ha hs
  subst hd
  simp [GBAThreadInterrupt, waitOnInterrupt, waitUntilNotState, workerPollResolve,
        GBAThreadIsActive, hs, ha]

theorem continue_eq_deep (t : GBAThread) (h : 1 < t.interruptDepth) :
    GBAThreadContinue t = { t with interruptDepth := t.interruptDepth - 1 } := by
  unfold GBAThreadContinue
  rw [if_neg]
  intro hc
  have h1 : t.interruptDepth - 1 < 1 := hc.1
  omega

theorem runIC_append (xs ys : List ICall) (t : GBAThread) :
    runIC (xs ++ ys) t = (runIC xs t).bind fun u => runIC ys u := by
  induction xs generalizing t with
  | nil => simp [runIC]
  | cons a rest ih =>
    cases a with
    | intr =>
      simp only [List.cons_append, runIC]
      cases GBAThreadInterrupt t with
      | none => simp
      | some u => simp [ih]
    | cont =>
      simp only [List.cons_append, runIC]
      exact ih (GBAThreadContinue t)

theorem continue_eq_inactive (t : GBAThread) (h : activeState t.state = false) :
    GBAThreadContinue t = { t with interruptDepth := t.interruptDepth - 1 } := by
  unfold GBAThreadContinue
  rw [if_neg]
  intro hc
  have h2 : activeState t.state = true := hc.2
  rw [h] at h2
  exact Bool.false_ne_true h2

theorem runIC_balanced_nested (xs : List ICall) (hb : BalancedIC xs) :
    ∀ t : GBAThread, 1 ≤ t.interruptDepth → t.state = .THREAD_INTERRUPTED →
      runIC xs t = some t := by
  induction hb with
  | nil => intro t _ _; rfl
  | wrap hxs hys ihxs ihys =>
    intro t hd hs
    simp only [runIC]
    rw [interrupt_eq_nested t (by omega)]
    rw [Option.some_bind]
    simp only [List.append_eq]
    rw [runIC_append]
    rw [ihxs { t with interruptDepth := t.interruptDepth + 1 } (by simp; omega) (by simpa using hs)]
    rw [Option.some_bind]
    simp only [runIC]
    have hcont : GBAThreadContinue { t with interruptDepth := t.interruptDepth + 1 } = t := by
      rw [continue_eq_deep _ (by simp; omega)]
      have h2 : t.interruptDepth + 1 - 1 = t.interruptDepth := by omega
      simp [h2]
    rw [hcont]
    exact ihys t hd hs

theorem runIC_balanced_inactive (xs : List ICall) (hb : BalancedIC xs) :
    ∀ t : GBAThread, activeState t.state = false → runIC xs t = some t := by
  induction hb with
  | nil => intro t _; rfl
  | wrap hxs hys ihxs ihys =>
    intro t ha
    simp only [runIC]
    rw [interrupt_eq_inactive t ha]
    rw [Option.some_bind]
    simp only [List.append_eq]
    rw [runIC_append]
    rw [ihxs { t with interruptDepth := t.interruptDepth + 1 } (by simpa using ha)]
    rw [Option.some_bind]
    simp only [runIC]
    have hcont : GBAThreadContinue { t with interruptDepth := t.interruptDepth + 1 } = t := by
      rw [continue_eq_inactive _ (by simpa using ha)]
      have h2 : t.interruptDepth + 1 - 1 = t.interruptDepth := by omega
      simp [h2]
    rw [hcont]
    exact ihys t ha

theorem continue_eq_restore (t : GBAThread) (hd : t.interruptDepth = 1)
    (ha : activeState t.state = true) :
    GBAThreadContinue t = { t with interruptDepth := 0, state := t.savedState } := by
  unfold GBAThreadContinue
  rw [if_pos]
  · simp [hd]
  · refine ⟨by simp [hd], ?_⟩
    show activeState t.state = true
    exact ha

theorem runIC_balanced_main (xs : List ICall) (hb : BalancedIC xs) :
    ∀ t : GBAThread, t.interruptDepth = 0 → t.state ≠ .THREAD_INTERRUPTED →
      ∃ t', runIC xs t = some t' ∧ t'.interruptDepth = 0 ∧ t'.state = t.state := by
  induction hb with
  | nil => intro t hd _; exact ⟨t, rfl, hd, rfl⟩
  | wrap hxs hys ihxs ihys =>
    intro t hd hs
    by_cases ha : activeState t.state = true
    · simp only [runIC]
      rw [interrupt_eq_outermost t hd ha hs]
      rw [Option.some_bind]
      simp only [List.append_eq]
      rw [runIC_append]
      rw [runIC_balanced_nested _ hxs _ (by show (1 : Int) ≤ 1; decide) (by rfl)]
      rw [Option.some_bind]
      simp only [runIC]
      rw [continue_eq_restore _ (by rfl) (by show activeState ThreadState.THREAD_INTERRUPTED = true; decide)]
      obtain ⟨t', h1, h2, h3⟩ :=
        ihys { t with interruptDepth := 0, savedState := t.state, state := t.state } rfl hs
      refine ⟨t', ?_, h2, ?_⟩
      · exact h1
      · exact h3
    · have ha' : activeState t.state = false := by
        revert ha
        cases activeState t.state <;> simp
      simp only [runIC]
      rw [interrupt_eq_inactive t ha']
      rw [Option.some_bind]
      simp only [List.append_eq]
      rw [runIC_append]
      rw [runIC_balanced_inactive _ hxs _ (by simpa using ha')]
      rw [Option.some_bind]
      simp only [runIC]
      have hcont : GBAThreadContinue { t with interruptDepth := t.interruptDepth + 1 } = t := by
        rw [continue_eq_inactive _ (by simpa using ha')]
        have h2 : t.interruptDepth + 1 - 1 = t.interruptDepth := by omega
        simp [h2]
      rw [hcont]
      exact ihys t hd hs

theorem waitUntilNotState_spec (t : GBAThread) (o : ThreadState) :
    waitUntilNotState t o =
      { t with state := if t.state = o then workerPollResolve t.state else t.state } := by
  obtain ⟨st, sv, d, sy, r, b, sa, p, c, g, sd, ts, mi⟩ := t
  obtain ⟨vp, vw, von, vs, aw⟩ := sy
  simp only [waitUntilNotState]
  split <;> rfl

theorem interrupt_depth_increment (t u : GBAThread) (h : GBAThreadInterrupt t = some u) :
    u.interruptDepth = t.interruptDepth + 1 := by
  simp only [GBAThreadInterrupt, waitOnInterrupt] at h
  split_ifs at h with h1 h2
  · injection h with h
    subst h
    rfl
  · simp at h
  · simp only [Option.map_some'] at h
    injection h with h
    subst h
    rw [waitUntilNotState_spec]

theorem continue_depth_decrement (t : GBAThread) :
    (GBAThreadContinue t).interruptDepth = t.interruptDepth - 1 := by
  obtain ⟨st, sv, d, sy, r, b, sa, p, c, g, sd, ts, mi⟩ := t
  simp only [GBAThreadContinue]
  split <;> rfl

theorem continue_cases (t : GBAThread) (h : 0 < t.interruptDepth) :
    GBAThreadContinue t =
      if t.interruptDepth = 1 ∧ activeState t.state = true then
        { t with interruptDepth := 0, state := t.savedState }
      else
        { t with interruptDepth := t.interruptDepth - 1 } := by
  by_cases hc : t.interruptDepth = 1 ∧ activeState t.state = true
  · rw [if_pos hc]
    exact continue_eq_restore t hc.1 hc.2
  · rw [if_neg hc]
    by_cases ha : activeState t.state = true
    · have hd1 : t.interruptDepth ≠ 1 := fun he => hc ⟨he, ha⟩
      exact continue_eq_deep t (by omega)
    · exact continue_eq_inactive t (by revert ha; cases activeState t.state <;> simp)

/-- C1.  `GBAThreadInterrupt` always increments `interruptDepth`; a nested
interrupt (depth already positive) or an interrupt of an inactive context
returns right after the increment, touching neither `savedState` nor
`state`; the outermost interrupt of an active, non-interrupted context saves
`state` into `savedState`, moves through INTERRUPTING, and returns once the
worker has left INTERRUPTING, i.e. with `state = INTERRUPTED`.
`GBAThreadContinue` always decrements `interruptDepth` and restores `state`
from `savedState` exactly when the depth reaches zero on an active context.
Consequently every balanced Interrupt/Continue sequence run from a
non-interrupted context with depth 0 terminates with depth 0 and the
original `state`. -/
theorem c1_interrupt_continue_reentrancy :
    (∀ t u : GBAThread, GBAThreadInterrupt t = some u →
        u.interruptDepth = t.interruptDepth + 1) ∧
    (∀ t : GBAThread, 0 < t.interruptDepth ∨ activeState t.state = false →
        GBAThreadInterrupt t = some { t with interruptDepth := t.interruptDepth + 1 }) ∧
    (∀ t : GBAThread, t.interruptDepth = 0 → activeState t.state = true →
        t.state ≠ .THREAD_INTERRUPTED →
        GBAThreadInterrupt t = some { t with interruptDepth := 1,
                                             savedState := t.state,
                                             state := .THREAD_INTERRUPTED }) ∧
    (∀ t : GBAThread, (GBAThreadContinue t).interruptDepth = t.interruptDepth - 1) ∧
    (∀ t : GBAThread, 0 < t.interruptDepth →
        GBAThreadContinue t =
          if t.interruptDepth = 1 ∧ activeState t.state = true then
            { t with interruptDepth := 0, state := t.savedState }
          else
            { t with interruptDepth := t.interruptDepth - 1 }) ∧
    (∀ xs : List ICall, BalancedIC xs → ∀ t : GBAThread,
        t.interruptDepth = 0 → t.state ≠ .THREAD_INTERRUPTED →
        ∃ t', runIC xs t = some t' ∧ t'.interruptDepth = 0 ∧ t'.state = t.state) := by
  refine ⟨interrupt_depth_increment, ?_, interrupt_eq_outermost,
          continue_depth_decrement, continue_cases, runIC_balanced_main⟩
  intro t h
  rcases h with h | h
  · exact interrupt_eq_nested t h
  · exact interrupt_eq_inactive t h

/-- A baseline sync channel for concrete evaluations. -/
def syncBase : GBASync :=
  { videoFramePending := 0, videoFrameWait := false, videoFrameOn := true,
    videoFrameSkip := 0, audioWait := false }

/-- A concrete running context for concrete evaluations. -/
def tRun : GBAThread :=
  { state := .THREAD_RUNNING, savedState := .THREAD_INITIALIZED, interruptDepth := 0,
    sync := syncBase, rom := none, bios := none, save := none, patch := none,
    cheatsFile := none, gameDir := none, stateDir := none,
    threadSpawned := false, mutexesInit := false }

/-- Witness for C1: the balanced nested sequence Interrupt, Interrupt,
Continue, Continue on a running context restores depth 0 and RUNNING. -/
theorem c1_interrupt_continue_reentrancy_witness :
    ∃ t', runIC [ICall.intr, ICall.intr, ICall.cont, ICall.cont] tRun = some t' ∧
      t'.interruptDepth = 0 ∧ t'.state = tRun.state := by
  have h := c1_interrupt_continue_reentrancy
  exact h.2.2.2.2.2 [ICall.intr, ICall.intr, ICall.cont, ICall.cont]
    (BalancedIC.wrap (BalancedIC.wrap BalancedIC.nil BalancedIC.nil) BalancedIC.nil)
    tRun rfl (by decide)

theorem postFrameBody_sync (s : GBASync) :
    (postFrameBody s).sync = { s with videoFramePending := s.videoFramePending + 1,
                                      videoFrameSkip := s.videoFrameSkip - 1 } := by
  obtain ⟨vp, vw, von, vs, aw⟩ := s
  simp only [postFrameBody]
  split <;> rfl

theorem postFrameBody_signaled (s : GBASync) :
    (postFrameBody s).signaled = decide (s.videoFrameSkip - 1 < 0) := by
  obtain ⟨vp, vw, von, vs, aw⟩ := s
  simp only [postFrameBody]
  split <;> rename_i h <;> simp at h <;> simp [h]

theorem postFrameBody_waited (s : GBASync) :
    (postFrameBody s).waited = (decide (s.videoFrameSkip - 1 < 0) && s.videoFrameWait) := by
  obtain ⟨vp, vw, von, vs, aw⟩ := s
  simp only [postFrameBody]
  split <;> rename_i h <;> simp at h <;> simp [h]

theorem postIter_fields (s : GBASync) : ∀ i : Nat,
    (postIter i s).videoFramePending = s.videoFramePending + i ∧
    (postIter i s).videoFrameSkip = s.videoFrameSkip - i ∧
    (postIter i s).videoFrameWait = s.videoFrameWait ∧
    (postIter i s).videoFrameOn = s.videoFrameOn := by
  intro i
  induction i with
  | zero => simp [postIter]
  | succ n ih =>
    obtain ⟨h1, h2, h3, h4⟩ := ih
    simp only [postIter, postFrameBody_sync]
    refine ⟨by simp [h1]; omega, by simp [h2]; ring, by simp [h3], by simp [h4]⟩

theorem waitFrameStart_true_sync (s : GBASync) (k : Int) (timedOut : Nat → Bool)
    (hr : (waitFrameStartBody s k timedOut).2 = true) :
    (waitFrameStartBody s k timedOut).1
      = { s with videoFramePending := 0, videoFrameSkip := k } := by
  unfold waitFrameStartBody at hr ⊢
  by_cases h1 : s.videoFrameOn = false ∧ s.videoFramePending = 0
  · rw [if_pos h1] at hr
    simp at hr
  · rw [if_neg h1] at hr ⊢
    by_cases h2 : s.videoFrameOn = true ∧ timedOut 50 = true
    · rw [if_pos h2] at hr
      simp at hr
    · rw [if_neg h2]

/-- C2.  If `GBASyncWaitFrameStart(k)` succeeds it has reset
`videoFramePending` to 0 and `videoFrameSkip` to `k`; each of the next `k`
`GBASyncPostFrame` calls neither signals `videoFrameAvailableCond` nor
enters the producer wait, and leaves `videoFrameSkip ≥ 0`;
`GBASyncDrawingFrame` is false before each of those `k` skipped frames and
true before the `(k+1)`-th, whose `GBASyncPostFrame` signals
`videoFrameAvailableCond`. -/
theorem c2_frameskip_contract (s s1 : GBASync) (k : Nat) (timedOut : Nat → Bool)
    (hr : (waitFrameStartBody s k timedOut).2 = true)
    (hs1 : s1 = (waitFrameStartBody s k timedOut).1) :
    s1.videoFramePending = 0 ∧ s1.videoFrameSkip = k ∧
    (∀ i : Nat, i < k →
      drawingFrameBody (postIter i s1) = false ∧
      (postFrameBody (postIter i s1)).signaled = false ∧
      (postFrameBody (postIter i s1)).waited = false ∧
      0 ≤ (postIter (i + 1) s1).videoFrameSkip) ∧
    drawingFrameBody (postIter k s1) = true ∧
    (postFrameBody (postIter k s1)).signaled = true := by
  rw [waitFrameStart_true_sync s k timedOut hr] at hs1
  · subst hs1
    have hp : ∀ i : Nat,
        (postIter i { s with videoFramePending := 0, videoFrameSkip := (k : Int) }).videoFrameSkip
          = (k : Int) - i := by
      intro i
      have h := (postIter_fields { s with videoFramePending := 0, videoFrameSkip := (k : Int) } i).2.1
      simpa using h
    refine ⟨rfl, rfl, ?_, ?_, ?_⟩
    · intro i hi
      refine ⟨?_, ?_, ?_, ?_⟩
      · unfold drawingFrameBody
        rw [hp i]
        simp
        omega
      · rw [postFrameBody_signaled, hp i]
        simp
        omega
      · rw [postFrameBody_waited, hp i]
        simp only [Bool.and_eq_false_imp]
        simp
        omega
      · rw [hp (i + 1)]
        push_cast
        omega
    · unfold drawingFrameBody
      rw [hp k]
      simp
    · rw [postFrameBody_signaled, hp k]
      simp

/-- The oracle of a `ConditionWaitTimed` that is signaled before its
deadline. -/
def noTimeout : Nat → Bool := fun _ => false

/-- Witness for C2 at frameskip 2 on the baseline channel. -/
theorem c2_frameskip_contract_witness :
    (waitFrameStartBody syncBase 2 noTimeout).1.videoFramePending = 0 ∧
    drawingFrameBody (postIter 2 (waitFrameStartBody syncBase 2 noTimeout).1) = true ∧
    (postFrameBody (postIter 2 (waitFrameStartBody syncBase 2 noTimeout).1)).signaled = true := by
  have h := c2_frameskip_contract syncBase _ 2 noTimeout (by decide) rfl
  exact ⟨h.1, h.2.2.2.1, h.2.2.2.2⟩

/-- C3.  Every `GBASyncPostFrame` on a non-null channel increments
`videoFramePending` and decrements `videoFrameSkip`; exactly when the skip
counter went negative it signals `videoFrameAvailableCond` and — only if
`videoFrameWait` is set — waits on `videoFrameRequiredCond`, whose loop
guard releases the producer exactly when `videoFramePending = 0` or
`videoFrameWait` has been cleared.  With `videoFrameWait = false` the
producer never blocks; a null channel is a no-op. -/
theorem c3_postframe_backpressure :
    (∀ s : GBASync, (postFrameBody s).sync.videoFramePending = s.videoFramePending + 1) ∧
    (∀ s : GBASync, (postFrameBody s).sync.videoFrameSkip = s.videoFrameSkip - 1) ∧
    (∀ s : GBASync, (postFrameBody s).signaled = true ↔ s.videoFrameSkip - 1 < 0) ∧
    (∀ s : GBASync, (postFrameBody s).waited = true ↔
        (s.videoFrameSkip - 1 < 0 ∧ s.videoFrameWait = true)) ∧
    (∀ s : GBASync, s.videoFrameWait = false → (postFrameBody s).waited = false) ∧
    (∀ s : GBASync, postFrameLoopGuard s = false ↔
        (s.videoFramePending = 0 ∨ s.videoFrameWait = false)) ∧
    GBASyncPostFrame none = none := by
  refine ⟨?_, ?_, ?_, ?_, ?_, ?_, rfl⟩
  · intro s
    rw [postFrameBody_sync]
  · intro s
    rw [postFrameBody_sync]
  · intro s
    rw [postFrameBody_signaled]
    simp
  · intro s
    rw [postFrameBody_waited]
    cases h : s.videoFrameWait <;> simp
  · intro s h
    rw [postFrameBody_waited, h]
    simp
  · intro s
    unfold postFrameLoopGuard
    cases h : s.videoFrameWait <;> simp

/-- Witness for C3 on the baseline channel (skip 0, wait off): the frame is
posted with a signal and no producer wait. -/
theorem c3_postframe_backpressure_witness :
    (postFrameBody syncBase).sync.videoFramePending = syncBase.videoFramePending + 1 ∧
    (postFrameBody syncBase).waited = false := by
  have h := c3_postframe_backpressure
  exact ⟨h.1 syncBase, h.2.2.2.2.1 syncBase (by decide)⟩

/-- C6.  On a non-null channel `GBASyncWaitFrameStart` first wakes
`videoFrameRequiredCond`; it returns false when the channel is dry and
disabled (`videoFrameOn` false and no pending frame) or when `videoFrameOn`
is set and the 50 ms timed wait hits its deadline; in every other case it
resets `videoFramePending` to 0, sets `videoFrameSkip` to the requested
frameskip, and returns true. -/
theorem c6_waitframestart_returns :
    (∀ (s : GBASync) (timedOut : Nat → Bool),
        (waitFrameStartEvents s timedOut).take 2 = [Ev.lockVideo, Ev.wakeRequired]) ∧
    (∀ (s : GBASync) (k : Int) (timedOut : Nat → Bool),
        s.videoFrameOn = false → s.videoFramePending = 0 →
        waitFrameStartBody s k timedOut = (s, false)) ∧
    (∀ (s : GBASync) (k : Int) (timedOut : Nat → Bool),
        s.videoFrameOn = true → timedOut 50 = true →
        (waitFrameStartBody s k timedOut).2 = false) ∧
    (∀ (s : GBASync) (k : Int) (timedOut : Nat → Bool),
        ¬(s.videoFrameOn = false ∧ s.videoFramePending = 0) →
        ¬(s.videoFrameOn = true ∧ timedOut 50 = true) →
        waitFrameStartBody s k timedOut =
          ({ s with videoFramePending := 0, videoFrameSkip := k }, true)) := by
  refine ⟨?_, ?_, ?_, ?_⟩
  · intro s timedOut
    unfold waitFrameStartEvents
    rfl
  · intro s k timedOut h1 h2
    unfold waitFrameStartBody
    rw [if_pos ⟨h1, h2⟩]
  · intro s k timedOut h1 h2
    unfold waitFrameStartBody
    rw [if_neg (by simp [h1]), if_pos ⟨h1, h2⟩]
  · intro s k timedOut h1 h2
    unfold waitFrameStartBody
    rw [if_neg h1, if_neg h2]

/-- Witness for C6: a disabled dry channel makes the consumer return false,
and on the baseline channel the call succeeds. -/
theorem c6_waitframestart_returns_witness :
    waitFrameStartBody { syncBase with videoFrameOn := false } 3 noTimeout
      = ({ syncBase with videoFrameOn := false }, false) ∧
    waitFrameStartBody syncBase 3 noTimeout
      = ({ syncBase with videoFramePending := 0, videoFrameSkip := 3 }, true) := by
  have h := c6_waitframestart_returns
  exact ⟨h.2.1 _ 3 noTimeout (by decide) (by decide),
         h.2.2.2 _ 3 noTimeout (by decide) (by decide)⟩

/-- C9.  `GBASyncWaitFrameStart` on a non-null channel returns with
`videoFrameMutex` still held on every path (dry-and-disabled, timeout, and
success alike), and of the video-channel operations only
`GBASyncWaitFrameEnd` releases it: its trace is exactly the unlock, while
`GBASyncPostFrame` and `_changeVideoSync` are lock-balanced. -/
theorem c9_waitframestart_retains_mutex :
    (∀ (s : GBASync) (timedOut : Nat → Bool),
        videoLockDelta (waitFrameStartEvents s timedOut) = 1) ∧
    (∀ s : GBASync, GBASyncWaitFrameEnd (some s) = [Ev.unlockVideo] ∧
        videoLockDelta (GBASyncWaitFrameEnd (some s)) = -1) ∧
    (∀ s : GBASync, videoLockDelta (postFrameEvents s) = 0) ∧
    (∀ (s : GBASync) (frameOn : Bool),
        videoLockDelta (changeVideoSyncEvents s frameOn) = 0) := by
  refine ⟨?_, ?_, ?_, ?_⟩
  · intro s timedOut
    unfold waitFrameStartEvents
    split_ifs <;> rfl
  · intro s
    exact ⟨rfl, rfl⟩
  · intro s
    unfold postFrameEvents
    split_ifs <;> rfl
  · intro s frameOn
    unfold changeVideoSyncEvents
    split_ifs <;> rfl

/-- C10.  Every SyncChannel operation is total on a null channel: the state
operations return at once leaving nothing touched and recording no lock or
signal action, and `GBASyncWaitFrameStart` and `GBASyncDrawingFrame` both
return true. -/
theorem c10_null_channel_total :
    GBASyncPostFrame none = none ∧
    (∀ (k : Int) (timedOut : Nat → Bool),
        GBASyncWaitFrameStart none k timedOut = (none, true)) ∧
    GBASyncWaitFrameEnd none = [] ∧
    GBASyncDrawingFrame none = true ∧
    GBASyncSuspendDrawing none = none ∧
    GBASyncResumeDrawing none = none ∧
    (∀ w : Bool, GBASyncProduceAudio none w = (none, [])) ∧
    GBASyncLockAudio none = (none, []) ∧
    GBASyncUnlockAudio none = (none, []) ∧
    GBASyncConsumeAudio none = (none, []) := by
  exact ⟨rfl, fun k timedOut => rfl, rfl, rfl, rfl, rfl, fun w => rfl, rfl, rfl, rfl⟩

theorem pauseThread_false (t : GBAThread) :
    pauseThread t false = { t with state := .THREAD_PAUSED } := by
  unfold pauseThread
  rw [if_pos rfl, waitUntilNotState_spec]
  simp [workerPollResolve]

theorem pause_eq (t : GBAThread) (hs : t.state ≠ .THREAD_INTERRUPTED) :
    GBAThreadPause t =
      some (if t.state = .THREAD_RUNNING then
              { t with state := .THREAD_PAUSED, sync := changeVideoSync t.sync false }
            else { t with sync := changeVideoSync t.sync true }) := by
  unfold GBAThreadPause waitOnInterrupt
  rw [if_neg hs]
  simp only [Option.map_some']
  by_cases hr : t.state = .THREAD_RUNNING
  · rw [if_pos hr, if_pos hr, pauseThread_false]
  · rw [if_neg hr, if_neg hr]

theorem unpause_eq (t : GBAThread) (hs : t.state ≠ .THREAD_INTERRUPTED) :
    GBAThreadUnpause t =
      some (if t.state = .THREAD_PAUSED ∨ t.state = .THREAD_PAUSING then
              { t with state := .THREAD_RUNNING, sync := changeVideoSync t.sync true }
            else { t with sync := changeVideoSync t.sync true }) := by
  unfold GBAThreadUnpause waitOnInterrupt
  rw [if_neg hs]
  simp only [Option.map_some']
  by_cases hr : t.state = .THREAD_PAUSED ∨ t.state = .THREAD_PAUSING
  · rw [if_pos hr, if_pos hr]
  · rw [if_neg hr, if_neg hr]

theorem toggle_eq (t : GBAThread) (hs : t.state ≠ .THREAD_INTERRUPTED) :
    GBAThreadTogglePause t =
      some (if t.state = .THREAD_PAUSED ∨ t.state = .THREAD_PAUSING then
              { t with state := .THREAD_RUNNING, sync := changeVideoSync t.sync true }
            else if t.state = .THREAD_RUNNING then
              { t with state := .THREAD_PAUSED, sync := changeVideoSync t.sync false }
            else { t with sync := changeVideoSync t.sync true }) := by
  unfold GBAThreadTogglePause waitOnInterrupt
  rw [if_neg hs]
  simp only [Option.map_some']
  by_cases h1 : t.state = .THREAD_PAUSED ∨ t.state = .THREAD_PAUSING
  · rw [if_pos h1, if_pos h1]
  · rw [if_neg h1, if_neg h1]
    by_cases h2 : t.state = .THREAD_RUNNING
    · rw [if_pos h2, if_pos h2, pauseThread_false]
    · rw [if_neg h2, if_neg h2]

theorem reset_eq (t : GBAThread) (hs : t.state ≠ .THREAD_INTERRUPTED) :
    GBAThreadReset t = some { t with state := .THREAD_RESETING } := by
  unfold GBAThreadReset waitOnInterrupt
  rw [if_neg hs]
  rfl

theorem ispaused_eq (t : GBAThread) (hs : t.state ≠ .THREAD_INTERRUPTED) :
    GBAThreadIsPaused t = some (decide (t.state = .THREAD_PAUSED)) := by
  unfold GBAThreadIsPaused waitOnInterrupt
  rw [if_neg hs]
  rfl

/-- A concrete shut-down context. -/
def tShutdown : GBAThread := { tRun with state := .THREAD_SHUTDOWN }

/-- C7 counterexample: `GBAThreadReset` checks nothing — called on an
inactive (SHUTDOWN) context, where the spec's precondition "active" does not
hold, it still changes the state, to RESETING, rather than leaving it
unchanged. -/
theorem c7_counterexample :
    activeState tShutdown.state = false ∧
    (GBAThreadReset tShutdown).map GBAThread.state = some .THREAD_RESETING ∧
    ¬ (GBAThreadReset tShutdown).map GBAThread.state = some tShutdown.state := by
  decide

/-- C7 (amended).  Pause twice ends PAUSED (from RUNNING or PAUSED), Unpause
twice ends RUNNING (from RUNNING, PAUSED or PAUSING); Pause, Unpause,
TogglePause, Interrupt and Continue never fail and leave `state` unchanged
when their preconditions do not hold; Reset also never fails but sets
RESETING unconditionally, even on an inactive context. -/
theorem c7_pause_unpause_noop :
    (∀ t : GBAThread, t.state = .THREAD_RUNNING ∨ t.state = .THREAD_PAUSED →
      ((GBAThreadPause t).bind GBAThreadPause).map GBAThread.state
        = some .THREAD_PAUSED) ∧
    (∀ t : GBAThread,
      t.state = .THREAD_RUNNING ∨ t.state = .THREAD_PAUSED ∨ t.state = .THREAD_PAUSING →
      ((GBAThreadUnpause t).bind GBAThreadUnpause).map GBAThread.state
        = some .THREAD_RUNNING) ∧
    (∀ t : GBAThread, t.state ≠ .THREAD_INTERRUPTED →
      ∃ u, GBAThreadPause t = some u ∧ (t.state ≠ .THREAD_RUNNING → u.state = t.state)) ∧
    (∀ t : GBAThread, t.state ≠ .THREAD_INTERRUPTED →
      ∃ u, GBAThreadUnpause t = some u ∧
        (t.state ≠ .THREAD_PAUSED → t.state ≠ .THREAD_PAUSING → u.state = t.state)) ∧
    (∀ t : GBAThread, t.state ≠ .THREAD_INTERRUPTED →
      ∃ u, GBAThreadTogglePause t = some u ∧
        (t.state ≠ .THREAD_RUNNING → t.state ≠ .THREAD_PAUSED →
          t.state ≠ .THREAD_PAUSING → u.state = t.state)) ∧
    (∀ t : GBAThread, t.state ≠ .THREAD_INTERRUPTED →
      ∃ u, GBAThreadReset t = some u ∧ u.state = .THREAD_RESETING) ∧
    (∀ t : GBAThread, activeState t.state = false →
      ∃ u, GBAThreadInterrupt t = some u ∧ u.state = t.state) ∧
    (∀ t : GBAThread, 1 < t.interruptDepth ∨ activeState t.state = false →
      (GBAThreadContinue t).state = t.state) := by
  refine ⟨?_, ?_, ?_, ?_, ?_, ?_, ?_, ?_⟩
  · intro t hr
    have hs : t.state ≠ .THREAD_INTERRUPTED := by
      rcases hr with h | h <;> rw [h] <;> simp
    rw [pause_eq t hs, Option.some_bind]
    rcases hr with h | h
    · rw [if_pos h]
      rw [pause_eq _ (by simp)]
      rw [if_neg (by simp)]
      rfl
    · rw [if_neg (by simp [h])]
      rw [pause_eq _ (by simp [h])]
      rw [if_neg (by simp [h])]
      simp [h]
  · intro t hr
    have hs : t.state ≠ .THREAD_INTERRUPTED := by
      rcases hr with h | h | h <;> rw [h] <;> simp
    rw [unpause_eq t hs, Option.some_bind]
    by_cases h1 : t.state = .THREAD_PAUSED ∨ t.state = .THREAD_PAUSING
    · rw [if_pos h1]
      rw [unpause_eq _ (by simp)]
      rw [if_neg (by simp)]
      rfl
    · have h : t.state = .THREAD_RUNNING := by
        rcases hr with h | h | h
        · exact h
        · exact absurd (Or.inl h) h1
        · exact absurd (Or.inr h) h1
      rw [if_neg h1]
      rw [unpause_eq _ (by simp [h])]
      rw [if_neg (by simp [h])]
      simp [h]
  · intro t hs
    rw [pause_eq t hs]
    by_cases hr : t.state = .THREAD_RUNNING
    · rw [if_pos hr]
      exact ⟨_, rfl, fun hc => absurd hr hc⟩
    · rw [if_neg hr]
      exact ⟨_, rfl, fun _ => rfl⟩
  · intro t hs
    rw [unpause_eq t hs]
    by_cases hr : t.state = .THREAD_PAUSED ∨ t.state = .THREAD_PAUSING
    · rw [if_pos hr]
      refine ⟨_, rfl, fun h1 h2 => ?_⟩
      rcases hr with h | h
      · exact absurd h h1
      · exact absurd h h2
    · rw [if_neg hr]
      exact ⟨_, rfl, fun _ _ => rfl⟩
  · intro t hs
    rw [toggle_eq t hs]
    by_cases h1 : t.state = .THREAD_PAUSED ∨ t.state = .THREAD_PAUSING
    · rw [if_pos h1]
      refine ⟨_, rfl, fun _ hp hpg => ?_⟩
      rcases h1 with h | h
      · exact absurd h hp
      · exact absurd h hpg
    · rw [if_neg h1]
      by_cases h2 : t.state = .THREAD_RUNNING
      · rw [if_pos h2]
        exact ⟨_, rfl, fun hr _ _ => absurd h2 hr⟩
      · rw [if_neg h2]
        exact ⟨_, rfl, fun _ _ _ => rfl⟩
  · intro t hs
    rw [reset_eq t hs]
    exact ⟨_, rfl, rfl⟩
  · intro t ha
    rw [interrupt_eq_inactive t ha]
    exact ⟨_, rfl, rfl⟩
  · intro t h
    rcases h with h | h
    · rw [continue_eq_deep t h]
    · rw [continue_eq_inactive t h]

/-- Witness for C7: double Pause from RUNNING ends PAUSED; double Unpause
from PAUSED ends RUNNING. -/
theorem c7_pause_unpause_noop_witness :
    ((GBAThreadPause tRun).bind GBAThreadPause).map GBAThread.state
      = some ThreadState.THREAD_PAUSED ∧
    ((GBAThreadUnpause { tRun with state := .THREAD_PAUSED }).bind
        GBAThreadUnpause).map GBAThread.state = some ThreadState.THREAD_RUNNING := by
  have h := c7_pause_unpause_noop
  exact ⟨h.1 tRun (Or.inl rfl), h.2.1 _ (Or.inr (Or.inl rfl))⟩

/-- C8 counterexample: `GBAThreadIsActive` (thread.c lines 540-542) returns
the comparison directly, with no `MutexLock`/`MutexUnlock` pair around it —
its only event is a bare read of `state` — so it is not the case that every
query reads `state` only while holding `stateMutex`. -/
theorem c8_counterexample : readsStateUnderLock isActiveEvents = false := by
  decide

/-- C8 (amended).  Every query returns the range comparison on the state
order: started iff past INITIALIZED, exited iff past EXITING, crashed iff
CRASHED, active iff RUNNING ≤ state < EXITING, paused iff PAUSED (after
draining any in-flight interrupt).  HasStarted, HasExited, HasCrashed and
IsPaused read `state` under `stateMutex`; IsActive reads it without
acquiring the mutex. -/
theorem c8_queries :
    (∀ t : GBAThread, GBAThreadHasStarted t = true ↔ t.state ≠ .THREAD_INITIALIZED) ∧
    (∀ t : GBAThread, GBAThreadHasExited t = true ↔
        (t.state = .THREAD_SHUTDOWN ∨ t.state = .THREAD_CRASHED)) ∧
    (∀ t : GBAThread, GBAThreadHasCrashed t = true ↔ t.state = .THREAD_CRASHED) ∧
    (∀ t : GBAThread, GBAThreadIsActive t = true ↔
        (t.state = .THREAD_RUNNING ∨ t.state = .THREAD_RESETING ∨
         t.state = .THREAD_INTERRUPTING ∨ t.state = .THREAD_INTERRUPTED ∨
         t.state = .THREAD_PAUSING ∨ t.state = .THREAD_PAUSED)) ∧
    (∀ t : GBAThread, t.state ≠ .THREAD_INTERRUPTED →
        (GBAThreadIsPaused t = some true ↔ t.state = .THREAD_PAUSED)) ∧
    readsStateUnderLock hasStartedEvents = true ∧
    readsStateUnderLock hasExitedEvents = true ∧
    readsStateUnderLock hasCrashedEvents = true ∧
    readsStateUnderLock isPausedEvents = true ∧
    readsStateUnderLock isActiveEvents = false := by
  refine ⟨?_, ?_, ?_, ?_, ?_, by decide, by decide, by decide, by decide, by decide⟩
  · rintro ⟨st, sv, d, sy, r, b, sa, p, c, g, sd, ts, mi⟩
    cases st <;> simp [GBAThreadHasStarted, stLt, ThreadState.toCtr]
  · rintro ⟨st, sv, d, sy, r, b, sa, p, c, g, sd, ts, mi⟩
    cases st <;> simp [GBAThreadHasExited, stLt, ThreadState.toCtr]
  · rintro ⟨st, sv, d, sy, r, b, sa, p, c, g, sd, ts, mi⟩
    cases st <;> simp [GBAThreadHasCrashed]
  · rintro ⟨st, sv, d, sy, r, b, sa, p, c, g, sd, ts, mi⟩
    cases st <;> simp [GBAThreadIsActive, activeState, stLt, stLe, ThreadState.toCtr]
  · intro t hs
    rw [ispaused_eq t hs]
    simp

/-- Witness for C8: a paused context reports paused, a running context
reports started. -/
theorem c8_queries_witness :
    GBAThreadIsPaused { tRun with state := .THREAD_PAUSED } = some true ∧
    GBAThreadHasStarted tRun = true := by
  have h := c8_queries
  exact ⟨(h.2.2.2.2.1 _ (by decide)).mpr rfl, (h.1 tRun).mpr (by decide)⟩

/-- A concrete ROM file and cheats file. -/
def vfROM : VFile := { id := 1, isROM := true, isPatch := false }

/-- The cheats file handle used in the C4 counterexample. -/
def vfCheats : VFile := { id := 7, isROM := false, isPatch := false }

/-- Arguments that open a ROM by name and a cheats file, as
`GBAMapArgumentsToContext` does. -/
def argsCheats : GBAArguments :=
  { dirmode := false, fnameDir := none, fnameFile := some vfROM,
    patchFile := none, cheatsFileArg := some vfCheats }

/-- C4 counterexample: a `cheatsFile` opened by `GBAMapArgumentsToContext`
is still open after `GBAThreadJoin` — its id (7) never appears among the
closed handles, so it is not closed exactly once (it is never closed). -/
theorem c4_counterexample :
    (GBAThreadJoin (GBAMapArgumentsToContext argsCheats tRun)).1.cheatsFile
      = some vfCheats ∧
    ((GBAThreadJoin (GBAMapArgumentsToContext argsCheats tRun)).2.count 7 = 0) := by
  decide

/-- The handle ids `GBAThreadJoin` closes: rom, save, bios, patch, gameDir,
and stateDir unless it aliases gameDir — each at most present once. -/
def joinClosedIdsSpec (t : GBAThread) : List Nat :=
  closeOpt t.rom ++ closeOpt t.save ++ closeOpt t.bios ++ closeOpt t.patch ++
    (match t.gameDir with
     | some gd => [gd.id]
     | none => []) ++
    (match t.stateDir, t.gameDir with
     | some sd, some gd => if sd = gd then [] else [sd.id]
     | some sd, none => [sd.id]
     | none, _ => [])

/-- C4 (amended).  After `GBAThreadJoin`, the rom, save, bios, patch, game
directory and state directory handles have each been closed exactly once
(an aliased stateDir is closed once, as the gameDir) and their fields are
cleared; the cheats file is never closed — `GBAThreadJoin` leaves
`cheatsFile` untouched, so that handle leaks. -/
theorem c4_join_ownership :
    ∀ t : GBAThread,
      (GBAThreadJoin t).2 = joinClosedIdsSpec t ∧
      (GBAThreadJoin t).1.rom = none ∧
      (GBAThreadJoin t).1.save = none ∧
      (GBAThreadJoin t).1.bios = none ∧
      (GBAThreadJoin t).1.patch = none ∧
      (GBAThreadJoin t).1.gameDir = none ∧
      (GBAThreadJoin t).1.stateDir = none ∧
      (GBAThreadJoin t).1.cheatsFile = t.cheatsFile := by
  rintro ⟨st, sv, d, sy, r, b, sa, p, c, g, sd, ts, mi⟩
  cases g with
  | none =>
    cases sd with
    | none => simp [GBAThreadJoin, joinClosedIdsSpec]
    | some sd' => simp [GBAThreadJoin, joinClosedIdsSpec]
  | some gd =>
    cases sd with
    | none => simp [GBAThreadJoin, joinClosedIdsSpec]
    | some sd' =>
      by_cases he : sd' = gd
      · subst he
        simp [GBAThreadJoin, joinClosedIdsSpec]
      · simp [GBAThreadJoin, joinClosedIdsSpec, he]

theorem dirScan_ghosts (es : List (Option VFile)) : ∀ t : GBAThread,
    (dirScan t es).1.threadSpawned = t.threadSpawned ∧
    (dirScan t es).1.mutexesInit = t.mutexesInit := by
  induction es with
  | nil => intro t; exact ⟨rfl, rfl⟩
  | cons e rest ih =>
    intro t
    simp only [dirScan]
    have h1 := ih (dirScanStep t e).1
    have h2 : (dirScanStep t e).1.threadSpawned = t.threadSpawned ∧
        (dirScanStep t e).1.mutexesInit = t.mutexesInit := by
      cases e with
      | none => exact ⟨rfl, rfl⟩
      | some vf =>
        simp only [dirScanStep]
        split_ifs <;> exact ⟨rfl, rfl⟩
    exact ⟨h1.1.trans h2.1, h1.2.trans h2.2⟩

theorem startScanPhase_ghosts (t : GBAThread) :
    (startScanPhase t).1.threadSpawned = t.threadSpawned ∧
    (startScanPhase t).1.mutexesInit = t.mutexesInit := by
  simp only [startScanPhase]
  refine ⟨?_, ?_⟩
  · split
    · rw [(dirScan_ghosts _ _).1]
      split
      · split_ifs <;> rfl
      · rfl
    · split
      · split_ifs <;> rfl
      · rfl
  · split
    · rw [(dirScan_ghosts _ _).2]
      split
      · split_ifs <;> rfl
      · rfl
    · split
      · split_ifs <;> rfl
      · rfl

/-- C5.  If after the directory scan no ROM is resolvable, `GBAThreadStart`
returns false with the state set to SHUTDOWN, having neither spawned the
worker nor initialized any mutex or condition (it fails before those
steps); conversely when it returns true it has spawned the worker and
returned only after the wait under `stateMutex` for `state ≥ RUNNING`, so
the state is at least RUNNING and `GBAThreadHasStarted` holds. -/
theorem c5_start_configerror (t : GBAThread) (saveFile : Option VFile)
    (hspawn : t.threadSpawned = false) (hmux : t.mutexesInit = false) :
    ((GBAThreadStart t saveFile).2.2 = false ↔ (startScanPhase t).1.rom = none) ∧
    ((GBAThreadStart t saveFile).2.2 = false →
      (GBAThreadStart t saveFile).1.state = .THREAD_SHUTDOWN ∧
      (GBAThreadStart t saveFile).1.threadSpawned = false ∧
      (GBAThreadStart t saveFile).1.mutexesInit = false) ∧
    ((GBAThreadStart t saveFile).2.2 = true →
      (GBAThreadStart t saveFile).1.threadSpawned = true ∧
      stLe .THREAD_RUNNING (GBAThreadStart t saveFile).1.state = true ∧
      GBAThreadHasStarted (GBAThreadStart t saveFile).1 = true) := by
  have hg := startScanPhase_ghosts t
  simp only [GBAThreadStart]
  by_cases h : (startScanPhase t).1.rom = none
  · rw [if_pos h]
    refine ⟨by simp [h], ?_, ?_⟩
    · intro _
      refine ⟨rfl, ?_, ?_⟩
      · show (startScanPhase t).1.threadSpawned = false
        rw [hg.1, hspawn]
      · show (startScanPhase t).1.mutexesInit = false
        rw [hg.2, hmux]
    · intro hc
      simp at hc
  · rw [if_neg h]
    refine ⟨by simp [h], ?_, ?_⟩
    · intro hc
      simp at hc
    · intro _
      exact ⟨rfl, rfl, rfl⟩

/-- Witness for C5: starting with a valid ROM succeeds and HasStarted holds;
starting with no ROM at all fails with SHUTDOWN. -/
theorem c5_start_configerror_witness :
    (GBAThreadStart { tRun with rom := some vfROM } none).2.2 = true ∧
    GBAThreadHasStarted (GBAThreadStart { tRun with rom := some vfROM } none).1 = true ∧
    (GBAThreadStart tRun none).2.2 = false ∧
    (GBAThreadStart tRun none).1.state = .THREAD_SHUTDOWN := by
  have h1 := c5_start_configerror { tRun with rom := some vfROM } none rfl rfl
  have h2 := c5_start_configerror tRun none rfl rfl
  have htrue : (GBAThreadStart { tRun with rom := some vfROM } none).2.2 = true := by decide
  have hfalse : (GBAThreadStart tRun none).2.2 = false := by decide
  exact ⟨htrue, (h1.2.2 htrue).2.2, hfalse, (h2.2.1 hfalse).1⟩
